import Mathlib

/-!
Verification development for the `pols-webserver` repository.

The repository couples a filesystem-convention HTTP router (`PWebServer.detectRoute`
in `src/index.ts`) with a session manager (`PSession` in the session module, and an
earlier `Session` in `src/session.ts`).  This file gives a shallow embedding of the
route-resolution / dispatch pipeline and of the session identity subsystem, and
proves or refutes the frozen specification claims about them.

Conventions of the embedding:
* JavaScript strings are Lean `String`s; character-level helpers work on `List Char`
  so that all definitions reduce by `rfl`/`decide`.
* Timestamps (`Date` values) are `Int` milliseconds.
* The filesystem seen by the route walker is a finite tree `FSNode`.
* `jsonwebtoken` signing is modelled symbolically: `jwtSign` appends a MAC tag that
  embeds the key and the payload, `jwtVerify` recomputes and compares it.  This is a
  perfect-MAC (Dolev-Yao style) model of HMAC; the claims under study are about the
  session manager's control flow, not about the hash function.
* String literals from the source keep their text except that quote characters
  inside messages are elided.
-/

/-! ## Character-level string utilities -/

/-- Split a character list on a separator character; mirrors JavaScript
`String.prototype.split` with a single-character separator. -/
def splitOnCharL (c : Char) : List Char → List (List Char)
  | [] => [[]]
  | x :: xs =>
    match splitOnCharL c xs with
    | [] => [[]]
    | g :: gs => if x = c then [] :: g :: gs else (x :: g) :: gs

/-- `split('/')` on a string, as used on the request path (src/index.ts line 543). -/
def splitSlash (s : String) : List String :=
  (splitOnCharL '/' s.data).map String.mk

/-- ASCII whitespace test; stand-in for the WhiteSpace/LineTerminator classes of
JavaScript `String.prototype.trim`. -/
def isWsChar (c : Char) : Bool := c = ' ' || c = '\t' || c = '\n' || c = '\r'

/-- JavaScript `trim()` over the common ASCII whitespace characters. -/
def jsTrim (s : String) : String :=
  String.mk (((s.data.dropWhile isWsChar).reverse.dropWhile isWsChar).reverse)

/-- Hexadecimal digit value. -/
def hexVal (c : Char) : Option Nat :=
  if '0' ≤ c ∧ c ≤ '9' then some (c.toNat - '0'.toNat)
  else if 'a' ≤ c ∧ c ≤ 'f' then some (c.toNat - 'a'.toNat + 10)
  else if 'A' ≤ c ∧ c ≤ 'F' then some (c.toNat - 'A'.toNat + 10)
  else none

/-- Percent-decoding of `%XX` escapes, the core of `decodeURIComponent`
(src/index.ts line 632).  Multi-byte UTF-8 sequences are decoded byte-wise and a
malformed escape is passed through unchanged (the JS builtin would throw a
`URIError`, an edge case outside every claim under study). -/
def percentDecodeL : List Char → List Char
  | [] => []
  | '%' :: a :: b :: rest =>
    match hexVal a, hexVal b with
    | some x, some y => Char.ofNat (16 * x + y) :: percentDecodeL rest
    | _, _ => '%' :: percentDecodeL (a :: b :: rest)
  | c :: rest => c :: percentDecodeL rest

/-- `decodeURIComponent` on a string. -/
def percentDecode (s : String) : String := String.mk (percentDecodeL s.data)

/-- `decodeURIComponent(part).trim()` — the transformation applied to each
positional route parameter (src/index.ts line 632). -/
def jsParam (s : String) : String := jsTrim (percentDecode s)

/-- If `p` is a prefix of `s`, return the remainder of `s`, else `none`. -/
def dropPrefL : List Char → List Char → Option (List Char)
  | [], l => some l
  | _ :: _, [] => none
  | p :: ps, c :: cs => if p = c then dropPrefL ps cs else none

/-- String version of `dropPrefL`. -/
def strDropPre (p s : String) : Option String :=
  (dropPrefL p.data s.data).map String.mk

/-- First occurrence of `pat` inside a character list; returns the characters
before the occurrence and those after it. -/
def findOcc (pat : List Char) : List Char → Option (List Char × List Char)
  | [] => if pat = [] then some ([], []) else none
  | c :: cs =>
    if pat.isPrefixOf (c :: cs) then some ([], (c :: cs).drop pat.length)
    else (findOcc pat cs).map fun x => (c :: x.1, x.2)

/-- JavaScript `String.prototype.replace` with a plain-string pattern: replaces
the first occurrence only, returns the string unchanged when the pattern does not
occur (src/index.ts line 517). -/
def jsReplace (pat rep s : String) : String :=
  match findOcc pat.data s.data with
  | some x => String.mk (x.1 ++ rep.data ++ x.2)
  | none => s

/-- Whether the plain-string pattern occurs in (i.e. matches somewhere inside)
the subject string. -/
def jsMatches (pat s : String) : Bool := (findOcc pat.data s.data).isSome

/-! ## Symbolic JWT (jsonwebtoken) model -/

/-- Symbolic MAC keyed by `key` over `payload`; perfect-MAC model of the HMAC
used by `jsonwebtoken`. -/
def macTag (key payload : String) : String := "tag//" ++ key ++ "//" ++ payload

/-- `jsonwebtoken.sign(\x7bid\x7d, secretKey)` (session module line 252): an
opaque token carrying the payload and a MAC over it. -/
def jwtSign (key payload : String) : String := payload ++ "." ++ macTag key payload

/-- Split a character list at its first `'.'`. -/
def splitFirstDot : List Char → Option (List Char × List Char)
  | [] => none
  | c :: cs =>
    if c = '.' then some ([], cs)
    else (splitFirstDot cs).map fun x => (c :: x.1, x.2)

/-- `jsonwebtoken.verify(token, secretKey)` (session module line 178): recompute
the MAC for the carried payload and compare; on any structural or MAC mismatch the
real library throws, modelled by `none`. -/
def jwtVerify (key token : String) : Option String :=
  match splitFirstDot token.data with
  | none => none
  | some x =>
    let payload := String.mk x.1
    if String.mk x.2 = macTag key payload then some payload else none

/-! ## UUID shape -/

/-- Hexadecimal digit, case-insensitive (`[0-9a-f]` with the `/i` flag). -/
def isHexChar (c : Char) : Bool :=
  ('0' ≤ c && c ≤ '9') || ('a' ≤ c && c ≤ 'f') || ('A' ≤ c && c ≤ 'F')

/-- The UUID regular expression of the session module (line 179):
`^[0-9a-f]\x7b8\x7d-[0-9a-f]\x7b4\x7d-[1-5][0-9a-f]\x7b3\x7d-[89ab][0-9a-f]\x7b3\x7d-[0-9a-f]\x7b12\x7d$` with `/i`. -/
def uuidShape (s : String) : Bool :=
  match splitOnCharL '-' s.data with
  | [a, b, c, d, e] =>
    a.length = 8 && b.length = 4 && c.length = 4 && d.length = 4 && e.length = 12
    && a.all isHexChar && b.all isHexChar
    && (match c with
        | c0 :: cs => ('1' ≤ c0 && c0 ≤ '5') && cs.all isHexChar
        | [] => false)
    && (match d with
        | d0 :: ds =>
          (d0 = '8' || d0 = '9' || d0 = 'a' || d0 = 'b' || d0 = 'A' || d0 = 'B')
            && ds.all isHexChar
        | [] => false)
    && e.all isHexChar
  | _ => false

/-! ## Session manager (`PSession`, session module)

The session module stores a `PSessionBody` per identifier.  `data` values (string,
number or object in TypeScript) are modelled as opaque strings; `lastCheck` is an
`Int` millisecond timestamp.  The memory backend (`PSessionCollection`, a plain
object used as a map) is an association list; the files backend is the list of
identifiers that currently have a `<id>.json` body file; a custom backend is its
`getBody` function. -/

/-- `PSessionBody` (session module lines 18-26). -/
structure PSessionBody where
  ip : String
  lastCheck : Int
  userAgent : String
  hostname : String
  data : List (String × String)
deriving DecidableEq, Repr

/-- The memory backend: `PSessionCollection`, identifier → body. -/
abbrev SessionStore := List (String × PSessionBody)

/-- Map lookup on the memory collection (`this.sessions[id]`). -/
def lookupS : SessionStore → String → Option PSessionBody
  | [], _ => none
  | (k, v) :: rest, idv => if k = idv then some v else lookupS rest idv

/-- Map write on the memory collection (`this.sessions[id] = body`). -/
def saveS : SessionStore → String → PSessionBody → SessionStore
  | [], idv, b => [(idv, b)]
  | (k, v) :: rest, idv, b =>
    if k = idv then (k, b) :: rest else (k, v) :: saveS rest idv b

/-- Association-list lookup on a body's `data` mapping. -/
def lookupData : List (String × String) → String → Option String
  | [], _ => none
  | (k, v) :: rest, key => if k = key then some v else lookupData rest key

/-- `PSession.generateID` (session module lines 255-274), memory backend: draw
candidate identifiers (`crypto.randomUUID()` results, supplied here as the stream
`uuids`) until one has no entry in the collection.  Returns the identifier and the
unconsumed stream, or `none` if the stream is exhausted. -/
def generateIDMem (st : SessionStore) : List String → Option (String × List String)
  | [] => none
  | u :: rest => if (lookupS st u).isSome then generateIDMem st rest else some (u, rest)

/-- `PSession.generateID`, files backend: draw until no `<id>.json` body file
exists (`files` is the set of identifiers that have one). -/
def generateIDFiles (files : List String) : List String → Option (String × List String)
  | [] => none
  | u :: rest => if u ∈ files then generateIDFiles files rest else some (u, rest)

/-- `PSession.generateID`, custom-functions backend: draw until the supplied
`getBody` reports no stored body. -/
def generateIDFun (getBody : String → Option PSessionBody) :
    List String → Option (String × List String)
  | [] => none
  | u :: rest => if (getBody u).isSome then generateIDFun getBody rest else some (u, rest)

/-- The invalidity test of `PSession.checkValidBody` (session module lines
152-167): the body is discarded when `lastCheck` is strictly older than the
expiration boundary, or when the recorded `userAgent` or `hostname` differ from
the current request's.  (The `!this.body`/`!this.body.lastCheck` guards of the
source concern absent fields, which cannot occur for bodies built by this
module.) -/
def checkInvalidMem (b : PSessionBody) (expirationTime : Int) (ua hn : String) : Bool :=
  decide (b.lastCheck < expirationTime) || b.userAgent != ua || b.hostname != hn

/-- The token-identity check at the top of `PSession.start` (session module lines
172-187): an absent or empty token, a token that fails verification, or a decoded
identifier that does not match the UUID shape all yield `none` (the source then
regenerates); otherwise the decoded identifier is adopted. -/
def tokenAccepted (key : String) (hs : Option String) : Option String :=
  match hs with
  | none => none
  | some t =>
    if t = "" then none
    else
      match jwtVerify key t with
      | none => none
      | some d => if uuidShape d then some d else none

/-- The fresh body `newBody` built by `PSession.start` (session module lines
194-200): current request's `ip`, `userAgent` and `hostname`, `lastCheck = now`,
empty `data`. -/
def newBody (ip : String) (now : Int) (ua hn : String) : PSessionBody :=
  { ip := ip, lastCheck := now, userAgent := ua, hostname := hn, data := [] }

/-- The `while (!this.body)` loop of `PSession.start` (session module lines
202-250), memory backend: load the body stored under the current identifier; if
present but invalid, discard it, regenerate the identifier and loop; if present
and valid, refresh `lastCheck` and write through; if absent, regenerate the
identifier, install the fresh body `nb` and write through.  Fuelled to mirror the
source's unbounded loop. -/
def startLoopMem : Nat → SessionStore → List String → String → Int → Int → String →
    String → PSessionBody → Option (String × PSessionBody × SessionStore)
  | 0, _, _, _, _, _, _, _, _ => none
  | fuel + 1, st, uuids, idv, now, expT, ua, hn, nb =>
    match lookupS st idv with
    | some b =>
      if checkInvalidMem b expT ua hn then
        match generateIDMem st uuids with
        | some x => startLoopMem fuel st x.2 x.1 now expT ua hn nb
        | none => none
      else
        let b2 := { b with lastCheck := now }
        some (idv, b2, saveS st idv b2)
    | none =>
      match generateIDMem st uuids with
      | some x => some (x.1, nb, saveS st x.1 nb)
      | none => none

/-- The result of `PSession.start`: the resolved identifier, the installed body,
the collection after the write-through, and the freshly signed token
(`this._encriptedId`, session module line 252). -/
structure StartResult where
  id : String
  body : PSessionBody
  sessions : SessionStore
  encriptedId : String
deriving DecidableEq, Repr

/-- `PSession.start` (session module lines 169-253), memory backend:
1. token identity check — on failure regenerate the identifier;
2. body-loading loop (`startLoopMem`);
3. sign a fresh token over the final identifier. -/
def pstartMem (fuel : Nat) (st : SessionStore) (uuids : List String)
    (hs : Option String) (key : String) (now : Int) (minutes : Nat)
    (ip ua hn : String) : Option StartResult :=
  let expT : Int := now - (minutes : Int) * 60000
  let nb : PSessionBody := newBody ip now ua hn
  let step1 : Option (String × List String) :=
    match tokenAccepted key hs with
    | some d => some (d, uuids)
    | none => generateIDMem st uuids
  match step1 with
  | none => none
  | some x =>
    (startLoopMem fuel st x.2 x.1 now expT ua hn nb).map fun y =>
      { id := y.1, body := y.2.1, sessions := y.2.2, encriptedId := jwtSign key y.1 }

/-! ## Route tree filesystem

The route namespace under `config.paths.routes` is a finite tree.  A node is
either a directory with named children or a regular file.  `fsGet` resolves a
relative segment path: a file has no children, matching the real filesystem. -/

/-- A filesystem node. -/
inductive FSNode where
  | dir (children : List (String × FSNode))
  | file
deriving Repr

/-- The children of the routes root. -/
abbrev FS := List (String × FSNode)

/-- Look up a directory entry by name. -/
def lookupChild : List (String × FSNode) → String → Option FSNode
  | [], _ => none
  | (k, v) :: cs, s => if k = s then some v else lookupChild cs s

/-- Resolve a relative path (`fs.existsSync`/`fs.statSync` target). -/
def fsGet : FSNode → List String → Option FSNode
  | n, [] => some n
  | n, s :: rest =>
    match n with
    | .file => none
    | .dir cs =>
      match lookupChild cs s with
      | some m => fsGet m rest
      | none => none

/-- Resolve a joined path: `path.join` drops empty segments, so they are
filtered out before the tree walk. -/
def fsGetJ (root : FSNode) (p : List String) : Option FSNode :=
  fsGet root (p.filter (fun s => s ≠ ""))

/-! ## Route tree walker (`detectRoute`, src/index.ts lines 549-609) -/

/-- Index into `pathParts` with the JavaScript semantics of `pathParts[i]`:
out-of-range (including negative, reachable through the `i--` retry at line 589)
yields `undefined`, modelled as `none`. -/
def getPart (parts : List String) (i : Int) : Option String :=
  if i < 0 then none else parts.get? i.toNat

/-- Outcome of the walker loop: the relative path handed to
`this.notFound('script', pathToRoute, ...)`, or the located route file together
with the value of `i` at which function-name resolution starts. -/
inductive WalkResult where
  | notFoundScript (pathToRoute : List String)
  | found (pathToRoute : List String) (i : Int)
deriving DecidableEq, Repr

/-- The `while (!routeObject)` walk (src/index.ts lines 554-596), fuelled.
State: `i` and `part` as in the source, `acc` is `pathToRouteArray` relative to
the routes root.

Line 561 reads `if (statsInfo.isDirectory)` — `isDirectory` is a *method* of
`fs.Stats` and the source does not invoke it, so the condition tests a function
reference and is truthy for every existing entry.  The walk therefore descends
into any existing entry, directory or not, and the `return notFound` else-branch
of line 569 is unreachable.  The embedding reproduces this: an existing entry is
always treated as a directory. -/
def walk (root : FS) (parts : List String) :
    Nat → Int → String → List String → Option WalkResult
  | 0, _, _, _ => none
  | fuel + 1, i, part, acc =>
    let pathToRoute := acc ++ [part]
    if (fsGetJ (FSNode.dir root) pathToRoute).isSome then
      walk root parts fuel (i + 1) ((getPart parts (i + 1)).getD "index") pathToRoute
    else
      let jsFile := (fsGetJ (FSNode.dir root) (acc ++ [part ++ ".js"])).isSome
      let tsFile := (fsGetJ (FSNode.dir root) (acc ++ [part ++ ".ts"])).isSome
      if jsFile || tsFile then
        let ext := if jsFile then ".js" else ".ts"
        some (.found (acc ++ [part ++ ext]) (i + 1))
      else if part ≠ "index" then
        walk root parts fuel (i - 1) "index" acc
      else
        some (.notFoundScript pathToRoute)

/-- The walk as the comment on src/index.ts lines 559-569 describes it, i.e.
with `statsInfo.isDirectory` actually invoked: an existing entry that is not a
directory fails with `notFound` at once.  Used to exhibit the divergence between
the written condition and the documented one. -/
def walkIsDirCalled (root : FS) (parts : List String) :
    Nat → Int → String → List String → Option WalkResult
  | 0, _, _, _ => none
  | fuel + 1, i, part, acc =>
    let pathToRoute := acc ++ [part]
    match fsGetJ (FSNode.dir root) pathToRoute with
    | some (.dir _) =>
      walkIsDirCalled root parts fuel (i + 1) ((getPart parts (i + 1)).getD "index") pathToRoute
    | some .file => some (.notFoundScript pathToRoute)
    | none =>
      let jsFile := (fsGetJ (FSNode.dir root) (acc ++ [part ++ ".js"])).isSome
      let tsFile := (fsGetJ (FSNode.dir root) (acc ++ [part ++ ".ts"])).isSome
      if jsFile || tsFile then
        let ext := if jsFile then ".js" else ".ts"
        some (.found (acc ++ [part ++ ext]) (i + 1))
      else if part ≠ "index" then
        walkIsDirCalled root parts fuel (i - 1) "index" acc
      else
        some (.notFoundScript pathToRoute)

/-! ## Function-name resolution and positional parameters
(src/index.ts lines 611-634) -/

/-- The function-name search (lines 613-627).  `callables` is the set of member
names `m` of the instantiated route object with `typeof routeObject[m] ==
'function'`.  When `pathParts[i]` is `undefined`, JavaScript string
concatenation turns it into the text `"undefined"`, which the embedding
reproduces.  Returns the selected member name and the updated `i` (`part` is
consumed by the first two candidates only), or `none` when the source reports
`notFound('function', ...)`. -/
def findFunction (callables : List String) (method : String) (parts : List String)
    (i : Int) : Option (String × Int) :=
  let part := (getPart parts i).getD "undefined"
  if method ++ "$" ++ part ∈ callables then some (method ++ "$" ++ part, i + 1)
  else if "$" ++ part ∈ callables then some ("$" ++ part, i + 1)
  else if "$index" ∈ callables then some ("$index", i)
  else none

/-- The parameter-collection loop (lines 630-634): every still-unconsumed
segment, in path order, `decodeURIComponent`-decoded and trimmed.  (`i` is
non-negative whenever this loop is reached.) -/
def collectParamsGo : List String → List String
  | [] => []
  | p :: rest => jsParam p :: collectParamsGo rest

/-- `collectParams parts i` renders `while (i < pathParts.length) \x7b
parameters.push(decodeURIComponent(part).trim()); i++ \x7d`. -/
def collectParams (parts : List String) (i : Nat) : List String :=
  collectParamsGo (parts.drop i)

/-! ## Path rewriting (`config.remap`, src/index.ts lines 515-524) -/

/-- The remap loop: run each rule's `replace` in order; the first rule whose
replacement *changes* the path wins and the loop breaks; a rule that leaves the
path unchanged (whether or not its pattern matched) falls through to the next. -/
def applyRemap : List (String × String) → String → String
  | [], p => p
  | r :: rs, p =>
    let res := jsReplace r.1 r.2 p
    if res ≠ p then res else applyRemap rs p

/-! ## Response envelope and dispatcher (`detectRoute`, src/index.ts lines 471-716)

`WebServerResponse` is reduced to the fields the claims are about: status, body,
redirect location and the cookie list.  Bodies keep just enough structure to
distinguish message text, wrapped handler values and public-file contents.
Server-side collaborators (lifecycle hooks, the loaded route class, the handler
itself) enter the model as explicit data: a hook is `none` (not configured) or
`some` of an `Except` capturing either its thrown error or its optional
short-circuit response.  Quote characters inside the source's Spanish message
strings are elided. -/

/-- Response body shapes distinguished by the model. -/
inductive RBody where
  | msg (s : String)
  | val (v : String)
  | fileContent (p : String)
deriving DecidableEq, Repr

/-- A cookie of the response envelope (`response.cookies` entries). -/
structure RCookie where
  name : String
  value : String
  httpOnly : Bool
  sameSite : Option String
deriving DecidableEq, Repr

/-- The response envelope (`WebServerResponse`). -/
structure WSResponse where
  status : Nat
  body : RBody
  location : Option String := none
  cookies : List RCookie := []
deriving DecidableEq, Repr

/-- What a route handler returns: a full envelope (used verbatim) or a plain
value (wrapped as a 200 envelope). -/
inductive HandlerOut where
  | resp (r : WSResponse)
  | val (v : String)

/-- The instantiated route object: which member names are functions (`typeof ==
'function'`), which of those are `AsyncFunction`s, the IP lists, the behaviour of
invoking a member with positional parameters, and the behaviour of the `finally`
hook. -/
structure RouteObj where
  callables : List String
  asyncFns : List String
  whiteList : List String := []
  blackList : List String := []
  run : String → List String → Except String HandlerOut
  finallyHook : Except String Unit := .ok ()

/-- A lifecycle hook: absent, or a computation that throws or returns an
optional short-circuit envelope. -/
abbrev Hook := Option (Except String (Option WSResponse))

/-- `config.public`: the URL prefix and the set of relative paths that exist as
public files. -/
structure PublicCfg where
  urlPath : String
  files : List String
deriving DecidableEq, Repr

/-- All inputs of one `detectRoute` call: the normalized request fields, the
relevant configuration, the route filesystem, the route-class loader
(`loadRouteClass`, `none` = import error) and the configured hooks. -/
structure DispatchIn where
  protocol : String
  httpsPort : Option Nat
  hostname : String
  pathUrl : String
  queryUrl : String
  method : String
  ip : String
  hsCookie : Option String
  baseUrl : Option String
  remap : Option (List (String × String))
  defaultRoute : Option String
  publicCfg : Option PublicCfg
  fsRoot : FS
  routeLoad : List String → Option RouteObj
  requestReceivedHook : Hook := none
  beforeExecuteHook : Hook := none
  notFoundHook : Hook := none
  showErrors : Bool := false
  sameSite : Option String := none

/-- Base-path stripping (line 514): `request.pathUrl.replace(new RegExp('^' +
baseUrl + '(\\/|$)'), '')` — if the path is exactly the base or starts with
`base + '/'`, that prefix is removed. -/
def stripBase (baseUrl : Option String) (p : String) : String :=
  match baseUrl with
  | none => p
  | some b =>
    match strDropPre (b ++ "/") p with
    | some rest => rest
    | none => if p = b then "" else p

/-- The public-file phase (lines 528-540): compute `pathUrlCopy` (the original
request path with `public.urlPath` stripped when it matches, otherwise the
resolved path) and answer the file's content when it exists. -/
def publicPhase (inp : DispatchIn) (pathUrl : String) : Option WSResponse :=
  match inp.publicCfg with
  | none => none
  | some pc =>
    let pathUrlCopy :=
      if pc.urlPath ≠ "" then
        match strDropPre pc.urlPath inp.pathUrl with
        | some rest => rest
        | none => pathUrl
      else pathUrl
    if pathUrlCopy ∈ pc.files then
      some { status := 200, body := .fileContent pathUrlCopy }
    else none

/-- `PWebServer.notFound` (lines 444-469): a generic 404, overridable by the
`notFound` hook; a hook failure yields a 500 envelope instead. -/
def notFoundEnvelope (hook : Hook) : WSResponse :=
  match hook with
  | some (.ok (some r)) => r
  | some (.error _) =>
    { status := 500, body := .msg "Error al ejecutar el evento notFound" }
  | _ => { status := 404, body := .msg "No se encontró la ruta" }

/-- The 500 envelope for a route-class import failure (lines 601-608). -/
def importErrorResp (showErrors : Bool) (e : String) : WSResponse :=
  { status := 500
    body := .msg (if showErrors then "Error al importar la ruta" ++ ": " ++ e
                  else "Error en el servidor") }

/-- Outcome of the resolution phases: short-circuit with an envelope, or go on
to execute member `fname` of `robj` with `params`. -/
inductive ResolveOut where
  | short (r : WSResponse)
  | exec (robj : RouteObj) (fname : String) (params : List String)

/-- Phases 3-6 of the dispatch (lines 510-671): base-path stripping, remap,
default route, public files, walker, route-class instantiation, function-name
resolution, parameter collection, the `AsyncFunction` check, IP allow/deny
lists, and the `beforeExecute` hook.  `none` models a dispatch whose promise
rejects (walker fuel exhaustion, or an empty `pathParts` making `path.join`
throw on `undefined`). -/
def resolveStage (inp : DispatchIn) (fuel : Nat) : Option ResolveOut :=
  let path1 := stripBase inp.baseUrl inp.pathUrl
  let path2 :=
    match inp.remap with
    | some rules => if path1 ≠ "" then applyRemap rules path1 else path1
    | none => path1
  let pathUrl := if path2 = "" then inp.defaultRoute.getD "" else path2
  match publicPhase inp pathUrl with
  | some r => some (.short r)
  | none =>
    let parts := (splitSlash pathUrl).filter (fun p => p ≠ "." ∧ p ≠ "..")
    match parts with
    | [] => none
    | p0 :: _ =>
      match walk inp.fsRoot parts fuel 0 p0 [] with
      | none => none
      | some (.notFoundScript _) => some (.short (notFoundEnvelope inp.notFoundHook))
      | some (.found rp i) =>
        match inp.routeLoad rp with
        | none => some (.short (importErrorResp inp.showErrors "import"))
        | some robj =>
          match findFunction robj.callables inp.method parts i with
          | none => some (.short (notFoundEnvelope inp.notFoundHook))
          | some fi =>
            let params := collectParams parts fi.2.toNat
            if fi.1 ∉ robj.asyncFns then
              some (.short ⟨500, .msg ("no es una función válida de ruta: " ++ fi.1), none, []⟩)
            else if robj.whiteList ≠ [] ∧ inp.ip ∉ robj.whiteList then
              some (.short ⟨401, .msg ("Acceso prohibido al IP " ++ inp.ip), none, []⟩)
            else if robj.blackList ≠ [] ∧ inp.ip ∈ robj.blackList then
              some (.short ⟨401, .msg ("Acceso prohibido al IP " ++ inp.ip), none, []⟩)
            else
              match inp.beforeExecuteHook with
              | some (.error _) =>
                some (.short ⟨500, .msg "Ocurrió un error en la ejecución del evento beforeExecute", none, []⟩)
              | some (.ok (some r)) => some (.short r)
              | _ => some (.exec robj fi.1 params)

/-- Handler execution with the `try/catch/finally` of lines 673-695 and the
normalization of lines 698-705.  Returns the envelope together with the number
of times the route object's `finally` hook ran. -/
def execStage (showErrors : Bool) (robj : RouteObj) (fname : String)
    (params : List String) : WSResponse × Nat :=
  let r1 : HandlerOut :=
    match robj.run fname params with
    | .ok out => out
    | .error e =>
      .resp { status := 500
              body := .msg (if showErrors then
                  "Ocurrió un error en la ejecución de la función " ++ fname ++ ": " ++ e
                else "Error en el servidor") }
  let r2 : HandlerOut :=
    match robj.finallyHook with
    | .ok _ => r1
    | .error _ =>
      .resp { status := 500
              body := .msg "Ocurrió un error en la ejecución del método finally" }
  let final : WSResponse :=
    match r2 with
    | .resp r => r
    | .val v => { status := 200, body := .val v }
  (final, 1)

/-- The session cookie the dispatcher appends (lines 709-714): name `hs`, value
`session.id`, `httpOnly: true`, `sameSite` from the configuration.  With the
`Session` class of `src/session.ts` that `detectRoute` constructs — and never
`start()`s — `session.id` is the identifier presented in the request's `hs`
cookie, or the empty string when none was presented. -/
def hsCookieOf (inp : DispatchIn) : RCookie :=
  { name := "hs", value := inp.hsCookie.getD "", httpOnly := true,
    sameSite := inp.sameSite }

/-- Append the session cookie to an envelope. -/
def appendHs (inp : DispatchIn) (r : WSResponse) : WSResponse :=
  { r with cookies := r.cookies ++ [hsCookieOf inp] }

/-- Phases 2 onward of `detectRoute`: the `requestReceived` hook (lines
495-508, whose thrown-error and short-circuit returns skip the cookie append),
the resolution phases, handler execution, and the session-cookie append of
lines 709-714. -/
def detectRouteTail (inp : DispatchIn) (fuel : Nat) : Option (WSResponse × Nat) :=
  match inp.requestReceivedHook with
  | some (.error _) =>
    some ({ status := 503,
            body := .msg "Ocurrió un error al ejecutar el evento requestReceived" }, 0)
  | some (.ok (some r)) => some (r, 0)
  | _ =>
    match resolveStage inp fuel with
    | none => none
    | some (.short r) => some (appendHs inp r, 0)
    | some (.exec robj fname params) =>
      let rc := execStage inp.showErrors robj fname params
      some (appendHs inp rc.1, rc.2)

/-- `detectRoute` (lines 471-716): the insecure-protocol redirect short-circuit
of lines 487-490 (which skips the cookie append), then `detectRouteTail`.  The
second component counts `finally`-hook runs. -/
def detectRoute (inp : DispatchIn) (fuel : Nat) : Option (WSResponse × Nat) :=
  match inp.httpsPort with
  | some port =>
    if inp.protocol = "http" then
      some ({ status := 302, body := .msg "",
              location := some ("https://" ++ inp.hostname ++ ":" ++ toString port
                ++ "/" ++ inp.pathUrl ++ inp.queryUrl) }, 0)
    else detectRouteTail inp fuel
  | none => detectRouteTail inp fuel

/-! ## Shared lemmas -/

/-- An identifier returned by the memory-backend `generateID` has no entry in
the collection it was checked against. -/
theorem generateIDMem_fresh {st : SessionStore} :
    ∀ {us : List String} {g : String} {rest : List String},
      generateIDMem st us = some (g, rest) → lookupS st g = none := by
  intro us
  induction us with
  | nil => intro g rest h; simp [generateIDMem] at h
  | cons u us ih =>
    intro g rest h
    by_cases hu : (lookupS st u).isSome
    · simp [generateIDMem, hu] at h
      exact ih h
    · simp [generateIDMem, hu] at h
      rw [← h.1]
      exact Option.not_isSome_iff_eq_none.mp hu

/-- Unfolding of the body-loading loop when the current identifier has no
stored body: the source regenerates once more and installs the fresh body. -/
theorem startLoopMem_miss {fuel : Nat} {st : SessionStore} {uuids : List String}
    {idv : String} {now expT : Int} {ua hn : String} {nb : PSessionBody}
    {g : String} {rest : List String}
    (hmiss : lookupS st idv = none)
    (hgen : generateIDMem st uuids = some (g, rest)) :
    startLoopMem (fuel + 1) st uuids idv now expT ua hn nb =
      some (g, nb, saveS st g nb) := by
  simp [startLoopMem, hmiss, hgen]

/-- The parameter-collection loop maps `jsParam` over the remaining segments. -/
theorem collectParamsGo_eq_map (l : List String) : collectParamsGo l = l.map jsParam := by
  induction l with
  | nil => rfl
  | cons p rest ih => simp [collectParamsGo, ih]

/-! ## Concrete fixtures for witnesses and counterexamples -/

/-- A UUID-shaped identifier. -/
def uuidA : String := "aaaaaaaa-aaaa-1aaa-8aaa-aaaaaaaaaaaa"

/-- A second UUID-shaped identifier. -/
def uuidB : String := "bbbbbbbb-bbbb-1bbb-8bbb-bbbbbbbbbbbb"

/-- A third UUID-shaped identifier. -/
def uuidC : String := "cccccccc-cccc-1ccc-8ccc-cccccccccccc"

/-- A stored session body with one `data` entry; `lastCheck = 940000` is exactly
`1000000 - 1·60000`, the expiration boundary for `now = 1000000`,
`minutesExpiration = 1`. -/
def bodyA : PSessionBody :=
  { ip := "ip0", lastCheck := 940000, userAgent := "ua0", hostname := "hn0",
    data := [("k", "v")] }

/-- A memory collection holding `bodyA` under `uuidA`. -/
def storeA : SessionStore := [(uuidA, bodyA)]

/-- A request for path `x` against an empty route tree, no hooks, no incoming
`hs` cookie, `sameSiteCookie = lax`. -/
def inpBase : DispatchIn :=
  { protocol := "https", httpsPort := none, hostname := "h", pathUrl := "x",
    queryUrl := "", method := "get", ip := "1.2.3.4", hsCookie := none,
    baseUrl := none, remap := none, defaultRoute := none, publicCfg := none,
    fsRoot := [], routeLoad := fun _ => none, sameSite := some "lax" }

/-- The envelope `detectRoute` produces for `inpBase`: a 404 with the appended
`hs` cookie. -/
def rBase : WSResponse :=
  { status := 404, body := .msg "No se encontró la ruta",
    cookies := [{ name := "hs", value := "", httpOnly := true, sameSite := some "lax" }] }

/-- A short-circuit envelope returned by the `requestReceived` hook. -/
def respHook : WSResponse := { status := 204, body := .msg "hook" }

/-- A route object whose handler always throws and whose `finally` hook
succeeds. -/
def robjThrow : RouteObj :=
  { callables := ["$index"], asyncFns := ["$index"],
    run := fun _ _ => .error "boom", finallyHook := .ok () }

/-- `inpBase` with a route file `x.ts` whose class instantiates `robjThrow`. -/
def inpThrow : DispatchIn :=
  { inpBase with
      fsRoot := [("x.ts", .file)],
      routeLoad := fun p => if p = [("x.ts" : String)] then some robjThrow else none }

/-! ## Claim C1 -/

/-- C1, counterexample: the claim says the `hs` cookie's value is the freshly
signed session token, verifiable with the configured secret.  In
`src/index.ts` lines 709-714 the value pushed is `session.id` — with the
`Session` class the dispatcher constructs (and never `start()`s) this is the
raw identifier presented in the request's `hs` cookie, or the empty string —
and no signing secret even exists in the dispatcher's configuration.  On a
request with no cookie the appended value is `""`; on a request presenting a
raw UUID the value is that UUID unchanged.  Neither is a signed token: signing
changes the string, and verification of either value fails for every key of
the form used by the session module. -/
theorem dispatch_cookie_value_is_raw_session_id :
    (detectRoute inpBase 10).map (fun rc => rc.1.cookies) =
      some [{ name := "hs", value := "", httpOnly := true, sameSite := some "lax" }]
    ∧ (detectRoute { inpBase with hsCookie := some uuidA } 10).map
        (fun rc => rc.1.cookies) =
      some [{ name := "hs", value := uuidA, httpOnly := true, sameSite := some "lax" }]
    ∧ jwtSign "clave" uuidA ≠ uuidA
    ∧ jwtVerify "clave" uuidA = none
    ∧ jwtVerify "clave" "" = none := by
  refine ⟨by decide, by decide, by decide, by decide, by decide⟩

/-- C1, amended: for every request that passes the insecure-protocol redirect
and the `requestReceived` hook (the two short-circuits before resolution), the
dispatcher appends to the final envelope, as its last cookie, a cookie named
`hs` whose value is the session object's identifier — the value presented in
the request's `hs` cookie, or empty — with `httpOnly = true` and `sameSite`
taken from the configuration. -/
theorem detectRoute_appends_session_id_cookie
    (inp : DispatchIn) (fuel : Nat) (r : WSResponse) (c : Nat)
    (hred : inp.protocol = "http" → inp.httpsPort = none)
    (hhook : inp.requestReceivedHook = none ∨ inp.requestReceivedHook = some (.ok none))
    (hrun : detectRoute inp fuel = some (r, c)) :
    r.cookies.getLast? = some (hsCookieOf inp) := by
  have htail : detectRouteTail inp fuel = some (r, c) := by
    cases hp : inp.httpsPort with
    | none => simp only [detectRoute, hp] at hrun; exact hrun
    | some port =>
      simp only [detectRoute, hp] at hrun
      by_cases hpr : inp.protocol = "http"
      · rw [hred hpr] at hp; exact Option.noConfusion hp
      · rw [if_neg hpr] at hrun; exact hrun
  rw [detectRouteTail] at htail
  rcases hhook with hh | hh <;> rw [hh] at htail
  all_goals
    cases hres : resolveStage inp fuel with
    | none => rw [hres] at htail; exact Option.noConfusion htail
    | some out =>
      rw [hres] at htail
      cases out with
      | short r0 =>
        simp only [Option.some.injEq, Prod.mk.injEq] at htail
        rw [← htail.1, appendHs]
        exact List.getLast?_concat _
      | exec robj fname params =>
        simp only [Option.some.injEq, Prod.mk.injEq] at htail
        rw [← htail.1, appendHs]
        exact List.getLast?_concat _

/-- C1, witness: on the concrete request `inpBase` the dispatch completes with
a 404 whose last cookie is the `hs` cookie. -/
theorem detectRoute_appends_session_id_cookie_witness :
    detectRoute inpBase 10 = some (rBase, 0)
    ∧ rBase.cookies.getLast? = some (hsCookieOf inpBase) := by
  refine ⟨by decide, ?_⟩
  exact detectRoute_appends_session_id_cookie inpBase 10 rBase 0
    (fun h => by exact absurd h (by decide))
    (Or.inl rfl) (by decide)

/-! ## Claim C2 -/

/-- C2: the claim (and the source's own comment on lines 559-569) says an
existing path entry that is neither a directory nor a leaf handler makes
resolution fail with NotFound immediately, without descending.  But line 561
tests `statsInfo.isDirectory` without invoking it — a method reference, truthy
for every existing entry — so the walker always descends and the line-569
NotFound branch is dead.  Concretely, with a regular extension-less file `foo`
under the routes root and request path `foo/bar`, the walk descends into
`foo`, retries with `index`, and reports NotFound at `foo/index`; the variant
with `isDirectory` actually called (the documented behaviour) reports NotFound
at `foo` immediately. -/
theorem walk_descends_into_plain_file :
    walk [("foo", .file)] ["foo", "bar"] 10 0 "foo" [] =
      some (.notFoundScript ["foo", "index"])
    ∧ walkIsDirCalled [("foo", .file)] ["foo", "bar"] 10 0 "foo" [] =
      some (.notFoundScript ["foo"]) := by
  exact ⟨by decide, by decide⟩

/-! ## Claim C3 -/

/-- C3: whenever no token is presented, or the presented token is empty or
fails verification with the configured secret, or the decoded identifier does
not match the UUID shape, `PSession.start` goes directly to regenerating: the
installed body is the fresh `newBody` (empty `data`), and the final identifier
has no entry in the pre-existing store — no previously stored body is loaded
under a mismatched identity. -/
theorem start_rejected_token_never_loads_body
    (fuel : Nat) (st : SessionStore) (uuids : List String) (hs : Option String)
    (key t d : String) (now : Int) (minutes : Nat) (ip ua hn : String) (r : StartResult)
    (hrej : hs = none ∨ hs = some "" ∨ (hs = some t ∧ jwtVerify key t = none)
      ∨ (hs = some t ∧ jwtVerify key t = some d ∧ uuidShape d = false))
    (hrun : pstartMem fuel st uuids hs key now minutes ip ua hn = some r) :
    r.body = newBody ip now ua hn ∧ r.body.data = [] ∧ lookupS st r.id = none := by
  have hta : tokenAccepted key hs = none := by
    rcases hrej with h | h | ⟨h, hv⟩ | ⟨h, hv, hu⟩
    · simp [tokenAccepted, h]
    · simp [tokenAccepted, h]
    · subst h
      simp only [tokenAccepted]
      split
      · rfl
      · rw [hv]
    · subst h
      simp only [tokenAccepted]
      split
      · rfl
      · rw [hv]; simp [hu]
  simp only [pstartMem, hta] at hrun
  cases hgen : generateIDMem st uuids with
  | none => rw [hgen] at hrun; simp at hrun
  | some x =>
    obtain ⟨g, rest⟩ := x
    rw [hgen] at hrun
    simp only [Option.map] at hrun
    have hmiss : lookupS st g = none := generateIDMem_fresh hgen
    cases fuel with
    | zero => simp [startLoopMem] at hrun
    | succ fuel =>
      cases hgen2 : generateIDMem st rest with
      | none => simp [startLoopMem, hmiss, hgen2] at hrun
      | some y =>
        rw [startLoopMem_miss hmiss hgen2] at hrun
        simp only [Option.map] at hrun
        cases hrun
        exact ⟨rfl, rfl, generateIDMem_fresh hgen2⟩

/-- C3, witness: a token signed with a different secret (`otra` instead of
`clave`) fails verification, and `start` installs a fresh empty body under a
freshly drawn identifier absent from the store. -/
theorem start_rejected_token_never_loads_body_witness :
    pstartMem 3 storeA [uuidB, uuidC] (some (jwtSign "otra" uuidA)) "clave"
      1000000 1 "ip1" "ua0" "hn0" =
      some { id := uuidC, body := newBody "ip1" 1000000 "ua0" "hn0",
             sessions := storeA ++ [(uuidC, newBody "ip1" 1000000 "ua0" "hn0")],
             encriptedId := jwtSign "clave" uuidC }
    ∧ jwtVerify "clave" (jwtSign "otra" uuidA) = none
    ∧ (newBody "ip1" 1000000 "ua0" "hn0").data = [] ∧ lookupS storeA uuidC = none := by
  have h := start_rejected_token_never_loads_body 3 storeA [uuidB, uuidC]
    (some (jwtSign "otra" uuidA)) "clave" (jwtSign "otra" uuidA) "" 1000000 1
    "ip1" "ua0" "hn0"
    { id := uuidC, body := newBody "ip1" 1000000 "ua0" "hn0",
      sessions := storeA ++ [(uuidC, newBody "ip1" 1000000 "ua0" "hn0")],
      encriptedId := jwtSign "clave" uuidC }
    (Or.inr (Or.inr (Or.inl ⟨rfl, by decide⟩))) (by decide)
  exact ⟨by decide, by decide, h.2.1, h.2.2⟩

/-! ## Claim C4 -/

/-- C4: every identifier produced by `generateID` is, at the moment generation
finishes, absent from the active store backend, for each of the three backend
kinds: files (no `<id>.json` body file), memory (no collection entry), and
custom functions (`getBody` reports no stored body). -/
theorem generateID_identifier_unused
    (files : List String) (st : SessionStore) (getBody : String → Option PSessionBody) :
    (∀ us g rest, generateIDFiles files us = some (g, rest) → g ∉ files)
    ∧ (∀ us g rest, generateIDMem st us = some (g, rest) → lookupS st g = none)
    ∧ (∀ us g rest, generateIDFun getBody us = some (g, rest) → getBody g = none) := by
  refine ⟨?_, ?_, ?_⟩
  · intro us
    induction us with
    | nil => intro g rest h; simp [generateIDFiles] at h
    | cons u us ih =>
      intro g rest h
      by_cases hu : u ∈ files
      · simp [generateIDFiles, hu] at h
        exact ih g rest h
      · simp [generateIDFiles, hu] at h
        rw [← h.1]
        exact hu
  · intro us g rest h
    exact generateIDMem_fresh h
  · intro us
    induction us with
    | nil => intro g rest h; simp [generateIDFun] at h
    | cons u us ih =>
      intro g rest h
      by_cases hu : (getBody u).isSome
      · simp [generateIDFun, hu] at h
        exact ih g rest h
      · simp [generateIDFun, hu] at h
        rw [← h.1]
        exact Option.not_isSome_iff_eq_none.mp hu

/-- C4, witness: on a concrete occupied store each backend's `generateID` skips
the taken identifier and the returned one is unused. -/
theorem generateID_identifier_unused_witness :
    (generateIDFiles [uuidA] [uuidA, uuidB] = some (uuidB, []) ∧ uuidB ∉ [uuidA])
    ∧ (generateIDMem storeA [uuidA, uuidB] = some (uuidB, []) ∧ lookupS storeA uuidB = none)
    ∧ (generateIDFun (fun s => if s = uuidA then some bodyA else none) [uuidA, uuidB] =
        some (uuidB, [])
      ∧ (fun s => if s = uuidA then some bodyA else none) uuidB = none) := by
  refine ⟨⟨by decide, ?_⟩, ⟨by decide, ?_⟩, ⟨by decide, ?_⟩⟩
  · exact (generateID_identifier_unused [uuidA] storeA
      (fun s => if s = uuidA then some bodyA else none)).1 [uuidA, uuidB] uuidB [] (by decide)
  · exact (generateID_identifier_unused [uuidA] storeA
      (fun s => if s = uuidA then some bodyA else none)).2.1 [uuidA, uuidB] uuidB [] (by decide)
  · exact (generateID_identifier_unused [uuidA] storeA
      (fun s => if s = uuidA then some bodyA else none)).2.2 [uuidA, uuidB] uuidB [] (by rfl)

/-! ## Claim C5 -/

/-- C5: during `start`, a stored body whose `lastCheck` equals exactly
`now - minutesExpiration` (in milliseconds) is treated as valid — kept under
the same identifier with `lastCheck` refreshed to `now` and `data` preserved —
while a body whose `lastCheck` is strictly older is discarded and the
identifier regenerated, installing the fresh empty body under an identifier
unused in the store. -/
theorem start_expiration_boundary
    (fuel : Nat) (st : SessionStore) (uuids : List String) (tok key idv : String)
    (b : PSessionBody) (now : Int) (minutes : Nat) (ip ua hn : String)
    (hver : jwtVerify key tok = some idv) (hshape : uuidShape idv = true)
    (hne : tok ≠ "") (hlook : lookupS st idv = some b)
    (hua : b.userAgent = ua) (hhn : b.hostname = hn) :
    (b.lastCheck = now - (minutes : Int) * 60000 →
      pstartMem (fuel + 1) st uuids (some tok) key now minutes ip ua hn =
        some { id := idv, body := { b with lastCheck := now },
               sessions := saveS st idv { b with lastCheck := now },
               encriptedId := jwtSign key idv })
    ∧ (b.lastCheck < now - (minutes : Int) * 60000 →
      ∀ g1 rest1 g2 rest2, generateIDMem st uuids = some (g1, rest1) →
        generateIDMem st rest1 = some (g2, rest2) →
        pstartMem (fuel + 2) st uuids (some tok) key now minutes ip ua hn =
          some { id := g2, body := newBody ip now ua hn,
                 sessions := saveS st g2 (newBody ip now ua hn),
                 encriptedId := jwtSign key g2 }
        ∧ lookupS st g2 = none) := by
  have hta : tokenAccepted key (some tok) = some idv := by
    simp [tokenAccepted, hne, hver, hshape]
  constructor
  · intro hlc
    have hvalid : checkInvalidMem b (now - (minutes : Int) * 60000) ua hn = false := by
      simp [checkInvalidMem, hlc, hua, hhn]
    simp [pstartMem, hta, startLoopMem, hlook, hvalid]
  · intro hlc g1 rest1 g2 rest2 hg1 hg2
    have hinv : checkInvalidMem b (now - (minutes : Int) * 60000) ua hn = true := by
      simp [checkInvalidMem, hlc]
    have hmiss : lookupS st g1 = none := generateIDMem_fresh hg1
    refine ⟨?_, generateIDMem_fresh hg2⟩
    simp [pstartMem, hta, startLoopMem, hlook, hinv, hg1, hmiss, hg2]

/-- C5, witness: with `now = 1000000` and one minute of expiration, the body
with `lastCheck = 940000` (the exact boundary) is kept and refreshed, while
`lastCheck = 939999` (one millisecond older) is discarded and the identity
regenerated. -/
theorem start_expiration_boundary_witness :
    pstartMem 3 storeA [uuidB, uuidC] (some (jwtSign "clave" uuidA)) "clave"
      1000000 1 "ip0" "ua0" "hn0" =
      some { id := uuidA, body := { bodyA with lastCheck := 1000000 },
             sessions := [(uuidA, { bodyA with lastCheck := 1000000 })],
             encriptedId := jwtSign "clave" uuidA }
    ∧ bodyA.lastCheck = 1000000 - (1 : Int) * 60000
    ∧ pstartMem 3 [(uuidA, { bodyA with lastCheck := 939999 })] [uuidB, uuidC]
        (some (jwtSign "clave" uuidA)) "clave" 1000000 1 "ip0" "ua0" "hn0" =
      some { id := uuidC, body := newBody "ip0" 1000000 "ua0" "hn0",
             sessions := [(uuidA, { bodyA with lastCheck := 939999 })]
               ++ [(uuidC, newBody "ip0" 1000000 "ua0" "hn0")],
             encriptedId := jwtSign "clave" uuidC } := by
  have h1 := (start_expiration_boundary 2 storeA [uuidB, uuidC] (jwtSign "clave" uuidA)
    "clave" uuidA bodyA 1000000 1 "ip0" "ua0" "hn0" (by decide) (by decide) (by decide)
    (by decide) rfl rfl).1 (by decide)
  have h2 := (start_expiration_boundary 1 [(uuidA, { bodyA with lastCheck := 939999 })]
    [uuidB, uuidC] (jwtSign "clave" uuidA) "clave" uuidA { bodyA with lastCheck := 939999 }
    1000000 1 "ip0" "ua0" "hn0" (by decide) (by decide) (by decide)
    (by decide) rfl rfl).2 (by decide) uuidB [uuidC] uuidC [] (by decide) (by decide)
  exact ⟨h1, by decide, h2.1⟩

/-! ## Claim C6 -/

/-- C6: when the stored body's `userAgent` or `hostname` differs from the
current request's, `start` on a request bearing the (valid) token for that body
discards it: the result carries a freshly generated identifier different from
the presented one and the fresh `newBody` whose `data` mapping is empty, so no
key of the old body's `data` is present in the new body. -/
theorem start_binding_change_fresh_identity
    (fuel : Nat) (st : SessionStore) (uuids : List String) (tok key idv : String)
    (b : PSessionBody) (now : Int) (minutes : Nat) (ip ua hn : String)
    (g1 g2 : String) (rest1 rest2 : List String)
    (hver : jwtVerify key tok = some idv) (hshape : uuidShape idv = true)
    (hne : tok ≠ "") (hlook : lookupS st idv = some b)
    (hbind : b.userAgent ≠ ua ∨ b.hostname ≠ hn)
    (hg1 : generateIDMem st uuids = some (g1, rest1))
    (hg2 : generateIDMem st rest1 = some (g2, rest2)) :
    pstartMem (fuel + 2) st uuids (some tok) key now minutes ip ua hn =
      some { id := g2, body := newBody ip now ua hn,
             sessions := saveS st g2 (newBody ip now ua hn),
             encriptedId := jwtSign key g2 }
    ∧ g2 ≠ idv
    ∧ (∀ k v, (k, v) ∈ b.data → lookupData (newBody ip now ua hn).data k = none) := by
  have hta : tokenAccepted key (some tok) = some idv := by
    simp [tokenAccepted, hne, hver, hshape]
  have hinv : checkInvalidMem b (now - (minutes : Int) * 60000) ua hn = true := by
    rcases hbind with h | h <;> simp [checkInvalidMem, h]
  have hmiss : lookupS st g1 = none := generateIDMem_fresh hg1
  have hmiss2 : lookupS st g2 = none := generateIDMem_fresh hg2
  refine ⟨?_, ?_, ?_⟩
  · simp [pstartMem, hta, startLoopMem, hlook, hinv, hg1, hmiss, hg2]
  · intro h
    rw [h, hlook] at hmiss2
    exact Option.noConfusion hmiss2
  · intro k v _
    rfl

/-- C6, witness: a second request with the same token but `userAgent = ua9`
instead of the stored `ua0` gets a new identifier and a body whose `data` no
longer contains the old key `k`. -/
theorem start_binding_change_fresh_identity_witness :
    pstartMem 3 storeA [uuidB, uuidC] (some (jwtSign "clave" uuidA)) "clave"
      1000000 1 "ip0" "ua9" "hn0" =
      some { id := uuidC, body := newBody "ip0" 1000000 "ua9" "hn0",
             sessions := storeA ++ [(uuidC, newBody "ip0" 1000000 "ua9" "hn0")],
             encriptedId := jwtSign "clave" uuidC }
    ∧ uuidC ≠ uuidA
    ∧ ("k", "v") ∈ bodyA.data
    ∧ lookupData (newBody "ip0" 1000000 "ua9" "hn0").data "k" = none := by
  have h := start_binding_change_fresh_identity 1 storeA [uuidB, uuidC]
    (jwtSign "clave" uuidA) "clave" uuidA bodyA 1000000 1 "ip0" "ua9" "hn0"
    uuidB uuidC [uuidC] [] (by decide) (by decide) (by decide) (by decide)
    (Or.inl (by decide)) (by decide) (by decide)
  exact ⟨h.1, h.2.1, by decide, h.2.2 "k" "v" (by decide)⟩

/-! ## Claim C7 -/

/-- C7: given the instantiated route object and the next path segment `part`,
function-name resolution tries exactly, in order, `<method>$part`, `$part`,
and — without consuming `part` — `$index`; when none of the three is a callable
member it returns `none` (which the dispatcher maps to the
`notFound('function')` envelope in `resolveStage`); and the parameter
collection passes every unconsumed segment, in path order, percent-decoded and
trimmed. -/
theorem findFunction_candidate_order
    (callables : List String) (method : String) (parts : List String) (i : Int)
    (part : String) (hp : getPart parts i = some part) :
    (method ++ "$" ++ part ∈ callables →
      findFunction callables method parts i = some (method ++ "$" ++ part, i + 1))
    ∧ (method ++ "$" ++ part ∉ callables → "$" ++ part ∈ callables →
      findFunction callables method parts i = some ("$" ++ part, i + 1))
    ∧ (method ++ "$" ++ part ∉ callables → "$" ++ part ∉ callables →
      "$index" ∈ callables →
      findFunction callables method parts i = some ("$index", i))
    ∧ (method ++ "$" ++ part ∉ callables → "$" ++ part ∉ callables →
      "$index" ∉ callables →
      findFunction callables method parts i = none)
    ∧ (∀ j : Nat, collectParams parts j = (parts.drop j).map jsParam) := by
  refine ⟨?_, ?_, ?_, ?_, ?_⟩
  · intro h1; simp [findFunction, hp, h1]
  · intro h1 h2; simp [findFunction, hp, h1, h2]
  · intro h1 h2 h3; simp [findFunction, hp, h1, h2, h3]
  · intro h1 h2 h3; simp [findFunction, hp, h1, h2, h3]
  · intro j; simp [collectParams, collectParamsGo_eq_map]

/-- C7, witness: the specification's own example — route unit exposing only
`$index`, request `admin/users/7` with the walker leaving `i = 2` — selects
`$index` without consuming `7`, which becomes the single positional
parameter. -/
theorem findFunction_candidate_order_witness :
    findFunction ["$index"] "get" ["admin", "users", "7"] 2 = some ("$index", 2)
    ∧ collectParams ["admin", "users", "7"] 2 = ["7"] := by
  have h := findFunction_candidate_order ["$index"] "get" ["admin", "users", "7"] 2 "7"
    (by decide)
  exact ⟨h.2.2.1 (by decide) (by decide) (by decide), by decide⟩

/-! ## Claim C8 -/

/-- C8, counterexample: the claim says the first *matching* rule in list order
rewrites the path once and no later rule is considered.  The source (lines
516-523) instead detects a match by whether `replace` changed the string, so a
rule whose pattern matches but whose replacement is the identity falls through.
With rules `[(a → a), (b → X)]` and path `ab`: pattern `a` matches `ab` and the
first rule rewrites it to `ab` itself, so under the claim the result is `ab`
and rule two is never considered — but the code produces `aX`, applying the
second rule. -/
theorem remap_identity_rule_not_first_match_winner :
    jsMatches "a" "ab" = true
    ∧ jsReplace "a" "a" "ab" = "ab"
    ∧ applyRemap [("a", "a"), ("b", "X")] "ab" = "aX"
    ∧ ("aX" : String) ≠ "ab" := by
  exact ⟨by decide, by decide, by decide, by decide⟩

/-- C8, amended: for every rule list and path, the remap applies exactly the
first rule in list order whose replacement *changes* the path (rules whose
replacement leaves the path unchanged, matching or not, are skipped), and the
path is left unchanged when no rule changes it — at most one effective rewrite,
first changing rule wins. -/
theorem applyRemap_first_changing_rule (rules : List (String × String)) (p : String) :
    applyRemap rules p =
      match rules.find? (fun r => jsReplace r.1 r.2 p != p) with
      | some r => jsReplace r.1 r.2 p
      | none => p := by
  induction rules with
  | nil => rfl
  | cons r rs ih =>
    by_cases h : jsReplace r.1 r.2 p = p
    · have hb : (jsReplace r.1 r.2 p != p) = false := by simp [h]
      simp [applyRemap, h, List.find?_cons, hb, ih]
    · have hb : (jsReplace r.1 r.2 p != p) = true := by simp [h]
      simp [applyRemap, h, List.find?_cons, hb]

/-! ## Claim C9 -/

/-- C9: when the resolved handler throws, the route object's `finally` hook
still runs exactly once (the run counter of the final result is 1) and the
final envelope is 500; with the show-errors flag off the body is only the
generic message — `Error en el servidor` when `finally` succeeded, the generic
`finally`-failure message when it also threw — never the underlying error
detail. -/
theorem handler_throw_finally_once_500
    (inp : DispatchIn) (fuel : Nat) (robj : RouteObj) (fname : String)
    (params : List String) (e : String)
    (hred : inp.protocol = "http" → inp.httpsPort = none)
    (hhook : inp.requestReceivedHook = none ∨ inp.requestReceivedHook = some (.ok none))
    (hres : resolveStage inp fuel = some (.exec robj fname params))
    (hthrow : robj.run fname params = .error e)
    (hshow : inp.showErrors = false) :
    (detectRoute inp fuel).map (fun rc => (rc.1.status, rc.2)) = some (500, 1)
    ∧ (robj.finallyHook = .ok () →
      (detectRoute inp fuel).map (fun rc => rc.1.body) = some (.msg "Error en el servidor"))
    ∧ (∀ f, robj.finallyHook = .error f →
      (detectRoute inp fuel).map (fun rc => rc.1.body) =
        some (.msg "Ocurrió un error en la ejecución del método finally")) := by
  have htail : detectRoute inp fuel = detectRouteTail inp fuel := by
    cases hp : inp.httpsPort with
    | none => simp [detectRoute, hp]
    | some port =>
      by_cases hpr : inp.protocol = "http"
      · rw [hred hpr] at hp; exact Option.noConfusion hp
      · simp [detectRoute, hp, hpr]
  have hrun : detectRoute inp fuel =
      some (appendHs inp (execStage inp.showErrors robj fname params).1,
            (execStage inp.showErrors robj fname params).2) := by
    rw [htail, detectRouteTail]
    rcases hhook with hh | hh <;> rw [hh] <;> rw [hres]
  cases hfin : robj.finallyHook with
  | ok u =>
    have hexec : execStage inp.showErrors robj fname params =
        ({ status := 500, body := .msg "Error en el servidor" }, 1) := by
      simp [execStage, hthrow, hshow, hfin]
    refine ⟨?_, ?_, ?_⟩
    · rw [hrun, hexec]; rfl
    · intro _; rw [hrun, hexec]; rfl
    · intro f hf; exact Except.noConfusion hf
  | error f0 =>
    have hexec : execStage inp.showErrors robj fname params =
        ({ status := 500,
           body := .msg "Ocurrió un error en la ejecución del método finally" }, 1) := by
      simp [execStage, hthrow, hshow, hfin]
    refine ⟨?_, ?_, ?_⟩
    · rw [hrun, hexec]; rfl
    · intro hok; exact Except.noConfusion hok
    · intro f hf; rw [hrun, hexec]; rfl

/-- C9, witness: a concrete route whose handler throws — the envelope is a 500
with the generic body, and the `finally` hook ran exactly once. -/
theorem handler_throw_finally_once_500_witness :
    (detectRoute inpThrow 10).map (fun rc => (rc.1.status, rc.2)) = some (500, 1)
    ∧ (detectRoute inpThrow 10).map (fun rc => rc.1.body) =
      some (.msg "Error en el servidor") := by
  have h := handler_throw_finally_once_500 inpThrow 10 robjThrow "$index" [] "boom"
    (fun hh => by exact absurd hh (by decide)) (Or.inl rfl) (by rfl) (by rfl) rfl
  exact ⟨h.1, h.2.1 rfl⟩

/-! ## Claim C10 -/

/-- C10: the two dispatch short-circuits skip the session-cookie append: a
dispatch answered by the insecure-protocol redirect carries no cookies at all;
one answered because the `requestReceived` hook threw carries no cookies; and
one answered by the hook's own envelope is returned verbatim, with nothing
appended by the dispatcher. -/
theorem detectRoute_short_circuit_no_session_cookie (inp : DispatchIn) (fuel : Nat) :
    (∀ port, inp.httpsPort = some port → inp.protocol = "http" →
      (detectRoute inp fuel).map (fun rc => rc.1.cookies) = some [])
    ∧ (∀ e, inp.requestReceivedHook = some (.error e) →
      (inp.protocol = "http" → inp.httpsPort = none) →
      (detectRoute inp fuel).map (fun rc => rc.1.cookies) = some [])
    ∧ (∀ r0, inp.requestReceivedHook = some (.ok (some r0)) →
      (inp.protocol = "http" → inp.httpsPort = none) →
      detectRoute inp fuel = some (r0, 0)) := by
  refine ⟨?_, ?_, ?_⟩
  · intro port hp hpr
    simp [detectRoute, hp, hpr]
  · intro e hh hred
    have htail : detectRoute inp fuel = detectRouteTail inp fuel := by
      cases hp : inp.httpsPort with
      | none => simp [detectRoute, hp]
      | some port =>
        by_cases hpr : inp.protocol = "http"
        · rw [hred hpr] at hp; exact Option.noConfusion hp
        · simp [detectRoute, hp, hpr]
    rw [htail, detectRouteTail, hh]
    rfl
  · intro r0 hh hred
    have htail : detectRoute inp fuel = detectRouteTail inp fuel := by
      cases hp : inp.httpsPort with
      | none => simp [detectRoute, hp]
      | some port =>
        by_cases hpr : inp.protocol = "http"
        · rw [hred hpr] at hp; exact Option.noConfusion hp
        · simp [detectRoute, hp, hpr]
    rw [htail, detectRouteTail, hh]

/-- C10, witness: the three short-circuits on concrete inputs — redirect and
hook-failure envelopes carry no cookies, and the hook's own envelope comes back
verbatim. -/
theorem detectRoute_short_circuit_no_session_cookie_witness :
    (detectRoute { inpBase with protocol := "http", httpsPort := some 443 } 10).map
      (fun rc => rc.1.cookies) = some []
    ∧ (detectRoute { inpBase with requestReceivedHook := some (.error "boom") } 10).map
      (fun rc => rc.1.cookies) = some []
    ∧ detectRoute { inpBase with requestReceivedHook := some (.ok (some respHook)) } 10 =
      some (respHook, 0) := by
  refine ⟨?_, ?_, ?_⟩
  · exact (detectRoute_short_circuit_no_session_cookie
      { inpBase with protocol := "http", httpsPort := some 443 } 10).1 443 rfl rfl
  · exact (detectRoute_short_circuit_no_session_cookie
      { inpBase with requestReceivedHook := some (.error "boom") } 10).2.1 "boom" rfl
      (fun h => by exact absurd h (by decide))
  · exact (detectRoute_short_circuit_no_session_cookie
      { inpBase with requestReceivedHook := some (.ok (some respHook)) } 10).2.2 respHook rfl
      (fun h => by exact absurd h (by decide))
